import Mathlib

/-!
Verification of the chartink-dashboard backtesting core against its
specification.  The Python sources are shallowly embedded: prices are
rationals, timestamps are integers (hours for intraday series, a day is
24 hours; daily candles carry day numbers where one unit = one day in the
simulator), and `numpy.random` is modelled as an explicit state machine
whose distribution samplers are abstract parameters.
-/

set_option autoImplicit false

namespace Chartink

/- Batteries marks the rational-number operations `@[irreducible]`,
which blocks `decide`-style evaluation of the executable definitions
below on concrete inputs; restore reducibility locally. -/
attribute [local semireducible] Rat.add Rat.sub Rat.mul Rat.inv

/-- One OHLCV bar, the row schema shared by every provider
(`datetime, open, high, low, close, volume`).  `opn` stands for the
source's `open` column (`open` is a Lean keyword). -/
structure Candle where
  ts : ℤ
  opn : ℚ
  high : ℚ
  low : ℚ
  close : ℚ
  volume : ℤ
  deriving DecidableEq, Repr

/-- Round-half-to-even on an exact rational, the semantics of Python's
built-in `round` on representable values. -/
def roundHalfEven (x : ℚ) : ℤ :=
  let f : ℤ := ⌊x⌋
  if x - f < 1/2 then f
  else if (1:ℚ)/2 < x - f then f + 1
  else if Even f then f else f + 1

/-- Python's `round(x, 2)`. -/
def round2 (x : ℚ) : ℚ := (roundHalfEven (x * 100) : ℚ) / 100

/-- Exit causes produced by `BacktestEngine._simulate_trade`
(`exit_reason` strings in the source). -/
inductive ExitReason where
  | stopLoss
  | targetProfit
  | maxHolding
  | endOfData
  deriving DecidableEq, Repr

/-- The per-candle exit test of `_simulate_trade`'s daily loop
(backtest_engine.py lines 128-148), in source order: max-holding check
first, then stop loss (`low ≤ stop price`), then target profit
(`high ≥ target price`); `none` when the day triggers no exit. -/
def exitDecision (slPrice tgtPrice : ℚ) (maxDays entryDay : ℤ)
    (row : Candle) : Option (ℚ × ExitReason) :=
  let days := row.ts - entryDay
  if maxDays ≤ days then some (row.close, ExitReason.maxHolding)
  else if row.low ≤ slPrice then some (slPrice, ExitReason.stopLoss)
  else if tgtPrice ≤ row.high then some (tgtPrice, ExitReason.targetProfit)
  else none

/-- The `for ... else` walk of `_simulate_trade`: first row whose
`exitDecision` fires determines exit price/reason/days; if none fires the
trade closes at the last row's close with reason end-of-data
(backtest_engine.py lines 128-152). -/
def walkExit (slPrice tgtPrice : ℚ) (maxDays entryDay : ℤ)
    (lastRow : Candle) : List Candle → ℚ × ExitReason × ℤ
  | [] => (lastRow.close, ExitReason.endOfData, lastRow.ts - entryDay)
  | r :: rest =>
    match exitDecision slPrice tgtPrice maxDays entryDay r with
    | some (p, reason) => (p, reason, r.ts - entryDay)
    | none => walkExit slPrice tgtPrice maxDays entryDay lastRow rest

/-- `BacktestEngine._simulate_trade` (backtest_engine.py lines 109-176):
compute stop/target prices, keep daily rows dated on/after the entry day,
fail (`None`) if nothing remains, otherwise walk forward.  Result is
(exit_price, exit_reason, days_held). -/
def simulate_trade (entryPrice : ℚ) (entryDay : ℤ) (dailyData : List Candle)
    (slPct tgtPct : ℚ) (maxDays : ℤ) : Option (ℚ × ExitReason × ℤ) :=
  let slPrice := entryPrice * (1 - slPct / 100)
  let tgtPrice := entryPrice * (1 + tgtPct / 100)
  let tradeData := dailyData.filter (fun r => decide (entryDay ≤ r.ts))
  match tradeData.getLast? with
  | none => none
  | some lastRow =>
      some (walkExit slPrice tgtPrice maxDays entryDay lastRow tradeData)

theorem walkExit_skip (slPrice tgtPrice : ℚ) (maxDays entryDay : ℤ)
    (lastRow : Candle) (pre : List Candle) (l : List Candle)
    (hpre : ∀ r ∈ pre, exitDecision slPrice tgtPrice maxDays entryDay r = none) :
    walkExit slPrice tgtPrice maxDays entryDay lastRow (pre ++ l) =
      walkExit slPrice tgtPrice maxDays entryDay lastRow l := by
  induction pre with
  | nil => rfl
  | cons r rest ih =>
      have hr := hpre r (by simp)
      simp only [List.cons_append, walkExit, hr]
      exact ih (fun x hx => hpre x (by simp [hx]))

/-- C1: on the first exit-triggering candle, if the holding period is not
yet exhausted and both the stop and the target thresholds are breached in
the same candle, the simulator closes at the stop price with reason
`STOP_LOSS`, never `TARGET_PROFIT`. -/
theorem C1_stop_loss_priority (entryPrice : ℚ) (entryDay : ℤ)
    (dailyData : List Candle) (slPct tgtPct : ℚ) (maxDays : ℤ)
    (pre rest : List Candle) (c : Candle)
    (hfilter : dailyData.filter (fun r => decide (entryDay ≤ r.ts)) =
      pre ++ c :: rest)
    (hpre : ∀ r ∈ pre, exitDecision (entryPrice * (1 - slPct / 100))
      (entryPrice * (1 + tgtPct / 100)) maxDays entryDay r = none)
    (hdays : c.ts - entryDay < maxDays)
    (hlow : c.low ≤ entryPrice * (1 - slPct / 100))
    (hhigh : entryPrice * (1 + tgtPct / 100) ≤ c.high) :
    simulate_trade entryPrice entryDay dailyData slPct tgtPct maxDays =
      some (entryPrice * (1 - slPct / 100), ExitReason.stopLoss,
        c.ts - entryDay) := by
  have hne : pre ++ c :: rest ≠ [] := by simp
  obtain ⟨lastRow, hlast⟩ :
      ∃ x, (pre ++ c :: rest).getLast? = some x := by
    cases h : (pre ++ c :: rest).getLast? with
    | none => exact absurd (List.getLast?_eq_none_iff.mp h) hne
    | some x => exact ⟨x, rfl⟩
  have hdec : exitDecision (entryPrice * (1 - slPct / 100))
      (entryPrice * (1 + tgtPct / 100)) maxDays entryDay c =
      some (entryPrice * (1 - slPct / 100), ExitReason.stopLoss) := by
    simp only [exitDecision, if_neg (not_le.mpr hdays), if_pos hlow]
  simp only [simulate_trade, hfilter, hlast,
    walkExit_skip _ _ _ _ _ pre (c :: rest) hpre, walkExit, hdec]

/-- Closed witness for C1: a two-day series where day 0 triggers nothing
and day 1 breaches both thresholds; the simulated exit is the stop price. -/
theorem C1_stop_loss_priority_witness :
    simulate_trade 100 0
      [⟨0, 100, 101, 99, 100, 0⟩, ⟨1, 100, 111, 94, 100, 0⟩] 5 10 5 =
      some (95, ExitReason.stopLoss, 1) := by
  have h := C1_stop_loss_priority 100 0
    [⟨0, 100, 101, 99, 100, 0⟩, ⟨1, 100, 111, 94, 100, 0⟩] 5 10 5
    [⟨0, 100, 101, 99, 100, 0⟩] [] ⟨1, 100, 111, 94, 100, 0⟩
    (by decide)
    (by intro r hr; simp at hr; subst hr; norm_num [exitDecision])
    (by decide) (by norm_num) (by norm_num)
  have h95 : (100 : ℚ) * (1 - 5 / 100) = 95 := by norm_num
  rw [h95] at h
  exact h

/-- The entry-price resolution step of `get_hourly_data_for_entry`
(data_client.py lines 147-172; the identical logic appears in
smartapi_client.py lines 375-400 and enhanced_data_client.py lines
386-402): `None` for a missing/empty series, otherwise the `open` of the
last candle at or before the hour-truncated entry time, falling back to
the `open` of the last candle of the whole series.  `entryHour` is the
entry timestamp already truncated to the hour. -/
def entry_price_from_series (df : List Candle) (entryHour : ℤ) : Option ℚ :=
  if df.isEmpty then none
  else
    let available := df.filter (fun r => decide (r.ts ≤ entryHour))
    match available.getLast? with
    | some c => some c.opn
    | none => df.getLast?.map Candle.opn

/-- The spec's canonical entry rule (§4.3), stated in the spec's own
words for comparison with `entry_price_from_series`: the open of the
first candle whose timestamp is ≥ the entry timestamp; if none exists,
the close of the last candle before the entry timestamp; `None` for an
empty series. -/
def spec_canonical_entry_price (df : List Candle) (e : ℤ) : Option ℚ :=
  if df.isEmpty then none
  else
    match (df.filter (fun r => decide (e ≤ r.ts))).head? with
    | some c => some c.opn
    | none => ((df.filter (fun r => decide (r.ts < e))).getLast?).map Candle.close

/-- C2 counterexample: candles at hours 0 and 2 with entry hour 1.  The
spec's canonical rule picks the open of the hour-2 candle (20); the code
picks the open of the hour-0 candle (10). -/
theorem C2_counterexample :
    entry_price_from_series
      [⟨0, 10, 11, 9, 11, 0⟩, ⟨2, 20, 21, 19, 21, 0⟩] 1 = some 10 ∧
    spec_canonical_entry_price
      [⟨0, 10, 11, 9, 11, 0⟩, ⟨2, 20, 21, 19, 21, 0⟩] 1 = some 20 ∧
    (10 : ℚ) ≠ 20 := by
  refine ⟨?_, ?_, by norm_num⟩ <;> rfl

/-- In a strictly-sorted list the last element bounds every element. -/
theorem sorted_getLast_max {l : List Candle}
    (hs : l.Pairwise (fun a b => a.ts < b.ts)) {x : Candle}
    (hx : l.getLast? = some x) : ∀ y ∈ l, y.ts ≤ x.ts := by
  induction l with
  | nil => simp at hx
  | cons a t ih =>
      cases t with
      | nil =>
          simp only [List.getLast?_singleton, Option.some.injEq] at hx
          subst hx
          intro y hy
          simp only [List.mem_singleton] at hy
          simp [hy]
      | cons b t' =>
          rw [List.getLast?_cons_cons] at hx
          have hmem : x ∈ b :: t' := by
            obtain ⟨h₁, h₂⟩ := List.mem_getLast?_eq_getLast (l := b :: t')
              (x := x) hx
            exact h₂ ▸ List.getLast_mem h₁
          intro y hy
          rcases List.mem_cons.mp hy with hya | hyt
          · subst hya
            exact le_of_lt ((List.pairwise_cons.mp hs).1 x hmem)
          · exact ih (List.pairwise_cons.mp hs).2 hx y hyt

/-- C2 amended: the code's entry rule.  An empty series yields no entry
price; otherwise the entry price is the open of the last candle at or
before the (hour-truncated) entry time when one exists, and the open of
the last candle of the series when every candle is after the entry
time. -/
theorem C2_amended_entry_rule (df : List Candle) (e : ℤ)
    (hs : df.Pairwise (fun a b => a.ts < b.ts)) (hne : df ≠ []) :
    entry_price_from_series [] e = none ∧
    ∃ c, c ∈ df ∧ entry_price_from_series df e = some c.opn ∧
      ((∃ c₀ ∈ df, c₀.ts ≤ e) →
        c.ts ≤ e ∧ ∀ c'' ∈ df, c''.ts ≤ e → c''.ts ≤ c.ts) ∧
      ((∀ c₀ ∈ df, e < c₀.ts) → ∀ c'' ∈ df, c''.ts ≤ c.ts) := by
  refine ⟨rfl, ?_⟩
  have hempty : df.isEmpty = false := by
    cases df with
    | nil => exact absurd rfl hne
    | cons a t => rfl
  have hsf : (df.filter (fun r => decide (r.ts ≤ e))).Pairwise
      (fun a b => a.ts < b.ts) := hs.sublist (List.filter_sublist df)
  cases havail : (df.filter (fun r => decide (r.ts ≤ e))).getLast? with
  | some c =>
      have hcmem : c ∈ df.filter (fun r => decide (r.ts ≤ e)) := by
        obtain ⟨h₁, h₂⟩ := List.mem_getLast?_eq_getLast havail
        exact h₂ ▸ List.getLast_mem h₁
      obtain ⟨hcdf, hcts⟩ := List.mem_filter.mp hcmem
      have hcts' : c.ts ≤ e := by simpa using hcts
      refine ⟨c, hcdf, ?_, ?_, ?_⟩
      · simp only [entry_price_from_series, hempty, Bool.false_eq_true,
          if_false, havail]
      · intro _
        refine ⟨hcts', fun c'' hc'' hc''ts => ?_⟩
        exact sorted_getLast_max hsf havail c''
          (List.mem_filter.mpr ⟨hc'', by simpa using hc''ts⟩)
      · intro hall
        exact absurd hcts' (not_le.mpr (hall c hcdf))
  | none =>
      have hfe : df.filter (fun r => decide (r.ts ≤ e)) = [] :=
        List.getLast?_eq_none_iff.mp havail
      obtain ⟨last, hlast⟩ : ∃ x, df.getLast? = some x :=
        ⟨df.getLast hne, List.getLast?_eq_getLast_of_ne_nil hne⟩
      have hlmem : last ∈ df := by
        obtain ⟨h₁, h₂⟩ := List.mem_getLast?_eq_getLast hlast
        exact h₂ ▸ List.getLast_mem h₁
      refine ⟨last, hlmem, ?_, ?_, ?_⟩
      · simp only [entry_price_from_series, hempty, Bool.false_eq_true,
          if_false, havail, hlast]
        rfl
      · rintro ⟨c₀, hc₀, hc₀ts⟩
        have : c₀ ∈ df.filter (fun r => decide (r.ts ≤ e)) :=
          List.mem_filter.mpr ⟨hc₀, by simpa using hc₀ts⟩
        rw [hfe] at this
        exact absurd this (List.not_mem_nil c₀)
      · intro _
        exact sorted_getLast_max hs hlast

/-- Closed witness for the amended C2 at a concrete two-candle series. -/
theorem C2_amended_entry_rule_witness :
    entry_price_from_series [] 1 = none ∧
    ∃ c, c ∈ [⟨0, 10, 11, 9, 11, 0⟩, (⟨2, 20, 21, 19, 21, 0⟩ : Candle)] ∧
      entry_price_from_series
        [⟨0, 10, 11, 9, 11, 0⟩, ⟨2, 20, 21, 19, 21, 0⟩] 1 = some c.opn ∧
      ((∃ c₀ ∈ [⟨0, 10, 11, 9, 11, 0⟩, (⟨2, 20, 21, 19, 21, 0⟩ : Candle)],
          c₀.ts ≤ 1) →
        c.ts ≤ 1 ∧ ∀ c'' ∈ [⟨0, 10, 11, 9, 11, 0⟩,
          (⟨2, 20, 21, 19, 21, 0⟩ : Candle)], c''.ts ≤ 1 → c''.ts ≤ c.ts) ∧
      ((∀ c₀ ∈ [⟨0, 10, 11, 9, 11, 0⟩, (⟨2, 20, 21, 19, 21, 0⟩ : Candle)],
          1 < c₀.ts) → ∀ c'' ∈ [⟨0, 10, 11, 9, 11, 0⟩,
          (⟨2, 20, 21, 19, 21, 0⟩ : Candle)], c''.ts ≤ c.ts) :=
  C2_amended_entry_rule
    [⟨0, 10, 11, 9, 11, 0⟩, ⟨2, 20, 21, 19, 21, 0⟩] 1
    (by simp) (by simp)

/-! ### DataSourceRouter: `EnhancedDataClient.get_historical_data` -/

/-- Cache key `f"{symbol}_{from_date}_{to_date}_{interval}"`
(enhanced_data_client.py line 47), modelled as its four components. -/
structure Key where
  symbol : String
  fromDate : ℤ
  toDate : ℤ
  interval : String
  deriving DecidableEq, Repr

/-- One entry of the router's fixed `sources` list: a vendor name (the
index into `api_call_counts`/`rate_limits`) and its fetch function; a
Python exception or `None` is `none`, a successful call is `some` rows. -/
structure Provider where
  name : String
  fetch : Key → Option (List Candle)

/-- The mutable state of `EnhancedDataClient`: the in-memory `cache`
dict (association list, newest first) and the `api_call_counts` dict. -/
structure RouterState where
  cache : List (Key × List Candle)
  counts : String → ℕ

/-- Python dict lookup on the cache. -/
def cacheFind : List (Key × List Candle) → Key → Option (List Candle)
  | [], _ => none
  | (k', v) :: rest, k => if k' = k then some v else cacheFind rest k

/-- `api_call_counts[name] += 1`. -/
def bump (counts : String → ℕ) (n : String) : String → ℕ :=
  fun m => if m = n then counts m + 1 else counts m

/-- The budget test `api_call_counts[source] >= rate_limits[source]`
(enhanced_data_client.py line 61); `none` models `float('inf')`, for
which the comparison is always false. -/
def budgetReached (lim : Option ℕ) (c : ℕ) : Bool :=
  match lim with
  | some l => l ≤ c
  | none => false

/-- The `rate_limits` dict of `EnhancedDataClient.__init__`. -/
def enhancedRateLimits : String → Option ℕ := fun n =>
  if n = "alpha_vantage" then some 25
  else if n = "nsepy" then some 1000
  else if n = "yfinance" then some 2000
  else none

/-- The provider loop of `EnhancedDataClient.get_historical_data`
(lines 60-77): skip an over-budget source without calling it; on a
non-empty result increment that source's count, store the result in the
cache and return; on `None`/empty/exception continue with the next
source.  The third component records which sources were actually
called. -/
def tryProviders (limits : String → Option ℕ) :
    List Provider → RouterState → Key →
      Option (List Candle) × RouterState × List String
  | [], st, _ => (none, st, [])
  | p :: rest, st, k =>
    if budgetReached (limits p.name) (st.counts p.name) then
      tryProviders limits rest st k
    else
      match p.fetch k with
      | some d =>
          if d.isEmpty then
            let r := tryProviders limits rest st k
            (r.1, r.2.1, p.name :: r.2.2)
          else
            (some d, ⟨(k, d) :: st.cache, bump st.counts p.name⟩, [p.name])
      | none =>
          let r := tryProviders limits rest st k
          (r.1, r.2.1, p.name :: r.2.2)

/-- `EnhancedDataClient.get_historical_data` (lines 40-84): cache lookup
first — a hit returns the cached series calling no provider — otherwise
run the provider loop. -/
def get_historical_data (limits : String → Option ℕ) (ps : List Provider)
    (st : RouterState) (k : Key) :
    Option (List Candle) × RouterState × List String :=
  match cacheFind st.cache k with
  | some d => (some d, st, [])
  | none => tryProviders limits ps st k

theorem tryProviders_success {limits : String → Option ℕ}
    {ps : List Provider} {st : RouterState} {k : Key}
    {d : List Candle} {st' : RouterState} {called : List String}
    (h : tryProviders limits ps st k = (some d, st', called)) :
    st'.cache = (k, d) :: st.cache ∧ ∀ n, st'.counts n ≤ st.counts n + 1 := by
  induction ps generalizing called with
  | nil => simp [tryProviders] at h
  | cons p rest ih =>
      rw [tryProviders] at h
      by_cases hb : budgetReached (limits p.name) (st.counts p.name) = true
      · rw [if_pos hb] at h
        exact ih h
      · rw [if_neg hb] at h
        cases hf : p.fetch k with
        | none =>
            rw [hf] at h
            dsimp only at h
            simp only [Prod.mk.injEq] at h
            obtain ⟨h1, h2, h3⟩ := h
            exact ih (by rw [← h1, ← h2])
        | some dd =>
            rw [hf] at h
            dsimp only at h
            by_cases he : dd.isEmpty = true
            · rw [if_pos he] at h
              simp only [Prod.mk.injEq] at h
              obtain ⟨h1, h2, h3⟩ := h
              exact ih (by rw [← h1, ← h2])
            · rw [if_neg he] at h
              simp only [Prod.mk.injEq, Option.some.injEq] at h
              obtain ⟨h1, h2, h3⟩ := h
              subst h1
              rw [← h2]
              refine ⟨rfl, fun n => ?_⟩
              simp only [bump]
              by_cases hn : n = p.name <;> simp [hn]

/-- C3: after a successful fetch, a second fetch with the identical key
returns the same cached series, calls no provider, leaves the state
untouched, and across the two calls every provider's used count has
grown by at most one. -/
theorem C3_cache_hit (limits : String → Option ℕ) (ps : List Provider)
    (st : RouterState) (k : Key) (d : List Candle) (st₁ : RouterState)
    (called₁ : List String)
    (h : get_historical_data limits ps st k = (some d, st₁, called₁)) :
    get_historical_data limits ps st₁ k = (some d, st₁, []) ∧
    ∀ n, st₁.counts n ≤ st.counts n + 1 := by
  rw [get_historical_data] at h
  cases hcf : cacheFind st.cache k with
  | some v =>
      rw [hcf] at h
      simp only [Prod.mk.injEq, Option.some.injEq] at h
      obtain ⟨h1, h2, h3⟩ := h
      subst h1 h2
      refine ⟨?_, fun n => Nat.le_succ _⟩
      rw [get_historical_data, hcf]
  | none =>
      rw [hcf] at h
      obtain ⟨hc, hcnt⟩ := tryProviders_success h
      refine ⟨?_, hcnt⟩
      rw [get_historical_data]
      have : cacheFind st₁.cache k = some d := by
        rw [hc, cacheFind, if_pos rfl]
      rw [this]

/-- Concrete single-provider router used to witness C3. -/
def c3Key : Key := ⟨"ACME", 0, 1, "1d"⟩

def c3Data : List Candle := [⟨0, 1, 1, 1, 1, 0⟩]

def c3Provider : Provider := ⟨"mock", fun _ => some c3Data⟩

def c3State : RouterState := ⟨[], fun _ => 0⟩

def c3State' : RouterState := ⟨[(c3Key, c3Data)], bump c3State.counts "mock"⟩

/-- Closed witness for C3: the concrete first call succeeds, and the
second call is a pure cache hit with unchanged counts. -/
theorem C3_cache_hit_witness :
    get_historical_data (fun _ => none) [c3Provider] c3State' c3Key =
      (some c3Data, c3State', []) ∧
    ∀ n, c3State'.counts n ≤ c3State.counts n + 1 :=
  C3_cache_hit (fun _ => none) [c3Provider] c3State c3Key c3Data c3State'
    ["mock"] rfl

theorem tryProviders_skip {limits : String → Option ℕ}
    {ps : List Provider} {st : RouterState} {k : Key} {n : String}
    (h : budgetReached (limits n) (st.counts n) = true) :
    n ∉ (tryProviders limits ps st k).2.2 := by
  induction ps with
  | nil => simp [tryProviders]
  | cons p rest ih =>
      rw [tryProviders]
      by_cases hb : budgetReached (limits p.name) (st.counts p.name) = true
      · rw [if_pos hb]
        exact ih
      · rw [if_neg hb]
        have hne : n ≠ p.name := fun he => hb (he ▸ h)
        cases hf : p.fetch k with
        | none =>
            dsimp only
            simp only [List.mem_cons, not_or]
            exact ⟨hne, ih⟩
        | some dd =>
            dsimp only
            by_cases he : dd.isEmpty = true
            · rw [if_pos he]
              simp only [List.mem_cons, not_or]
              exact ⟨hne, ih⟩
            · rw [if_neg he]
              simp only [List.mem_cons, List.not_mem_nil, or_false]
              exact hne

/-- C4: a provider whose used count has reached its budget is never
among the providers actually called, and when the first provider is over
budget while the second is within budget and succeeds, the request is
served by the second: only it is called, its count alone is bumped, and
its result is cached and returned. -/
theorem C4_budget_skip :
    (∀ (limits : String → Option ℕ) (ps : List Provider) (st : RouterState)
      (k : Key) (n : String),
        budgetReached (limits n) (st.counts n) = true →
        n ∉ (get_historical_data limits ps st k).2.2) ∧
    (∀ (limits : String → Option ℕ) (A B : Provider) (rest : List Provider)
      (st : RouterState) (k : Key) (d : List Candle),
        cacheFind st.cache k = none →
        budgetReached (limits A.name) (st.counts A.name) = true →
        budgetReached (limits B.name) (st.counts B.name) = false →
        B.fetch k = some d → d ≠ [] →
        get_historical_data limits (A :: B :: rest) st k =
          (some d, ⟨(k, d) :: st.cache, bump st.counts B.name⟩, [B.name])) := by
  constructor
  · intro limits ps st k n hn
    rw [get_historical_data]
    cases hcf : cacheFind st.cache k with
    | some v => simp
    | none => exact tryProviders_skip hn
  · intro limits A B rest st k d hcf hA hB hfB hd
    rw [get_historical_data, hcf, tryProviders, if_pos hA, tryProviders,
      if_neg (by rw [hB]; exact Bool.false_ne_true), hfB]
    dsimp only
    rw [if_neg (by simpa [List.isEmpty_iff] using hd)]

/-- Concrete two-provider router used to witness C4: `alpha_vantage`
has exhausted its 25-call budget, `yfinance` has not. -/
def c4Key : Key := ⟨"ACME", 0, 1, "1d"⟩

def c4Data : List Candle := [⟨0, 2, 2, 2, 2, 0⟩]

def c4ProviderA : Provider := ⟨"alpha_vantage", fun _ => some c4Data⟩

def c4ProviderB : Provider := ⟨"yfinance", fun _ => some c4Data⟩

def c4State : RouterState :=
  ⟨[], fun n => if n = "alpha_vantage" then 25 else 0⟩

/-- Closed witness for C4 at the concrete router: the exhausted
provider is not called and the request is served by the next one. -/
theorem C4_budget_skip_witness :
    "alpha_vantage" ∉
      (get_historical_data enhancedRateLimits [c4ProviderA, c4ProviderB]
        c4State c4Key).2.2 ∧
    get_historical_data enhancedRateLimits [c4ProviderA, c4ProviderB]
        c4State c4Key =
      (some c4Data, ⟨(c4Key, c4Data) :: c4State.cache,
        bump c4State.counts "yfinance"⟩, ["yfinance"]) :=
  ⟨C4_budget_skip.1 enhancedRateLimits [c4ProviderA, c4ProviderB] c4State
      c4Key "alpha_vantage" (by decide),
    C4_budget_skip.2 enhancedRateLimits c4ProviderA c4ProviderB [] c4State
      c4Key c4Data rfl (by decide) (by decide) rfl (by decide)⟩

/-! ### `BacktestEngine.run_backtest` and `calculate_metrics` -/

/-- One row of the input trades frame: `stock_name` and the (day part
of) `entry_datetime`. -/
structure TradeSignal where
  stock_name : String
  entryDay : ℤ
  deriving DecidableEq, Repr

/-- The result dict built by `_simulate_trade` (backtest_engine.py lines
159-172); date-formatting fields are presentation only and omitted. -/
structure Outcome where
  symbol : String
  entry_price : ℚ
  exit_price : ℚ
  exit_reason : ExitReason
  days_held : ℤ
  pnl : ℚ
  pnl_pct : ℚ
  is_winner : Bool
  stop_loss_price : ℚ
  target_price : ℚ
  deriving DecidableEq, Repr

/-- `_simulate_trade` end to end: the exit walk plus the derived P&L
fields (`pnl = exit - entry`, `pnl_pct = pnl / entry * 100`,
`is_winner = pnl > 0`, lines 154-172). -/
def simulate_trade_outcome (symbol : String) (entryPrice : ℚ)
    (entryDay : ℤ) (dailyData : List Candle) (slPct tgtPct : ℚ)
    (maxDays : ℤ) : Option Outcome :=
  match simulate_trade entryPrice entryDay dailyData slPct tgtPct maxDays with
  | none => none
  | some (xp, reason, days) =>
      let pnl := xp - entryPrice
      some { symbol := symbol, entry_price := entryPrice, exit_price := xp,
             exit_reason := reason, days_held := days, pnl := pnl,
             pnl_pct := pnl / entryPrice * 100,
             is_winner := decide (0 < pnl),
             stop_loss_price := entryPrice * (1 - slPct / 100),
             target_price := entryPrice * (1 + tgtPct / 100) }

/-- The body of `run_backtest`'s per-signal `try` block
(backtest_engine.py lines 44-98) for one signal.  The two data-client
calls are abstract environments: `Except.error` models a raised
exception, `Except.ok none` a `None` result; any of exception, missing
entry data, missing/empty daily data, or a failed simulation makes the
signal a failed trade (`none`). -/
def processTrade (getEntry : TradeSignal → Except Unit (Option ℚ))
    (getDaily : TradeSignal → Except Unit (Option (List Candle)))
    (slPct tgtPct : ℚ) (maxDays : ℤ) (s : TradeSignal) : Option Outcome :=
  match getEntry s with
  | .error _ => none
  | .ok none => none
  | .ok (some entryPrice) =>
      match getDaily s with
      | .error _ => none
      | .ok none => none
      | .ok (some daily) =>
          if daily.isEmpty then none
          else simulate_trade_outcome s.stock_name entryPrice s.entryDay
            daily slPct tgtPct maxDays

/-- `BacktestEngine.run_backtest` (lines 23-107): fold over the signal
list, collecting successful outcomes in order and counting
successes/failures; a failed signal only increments `failed_trades` and
the loop continues.  Result: (results, successful_trades,
failed_trades). -/
def run_backtest (getEntry : TradeSignal → Except Unit (Option ℚ))
    (getDaily : TradeSignal → Except Unit (Option (List Candle)))
    (slPct tgtPct : ℚ) (maxDays : ℤ) :
    List TradeSignal → List Outcome × ℕ × ℕ
  | [] => ([], 0, 0)
  | s :: rest =>
      let r := run_backtest getEntry getDaily slPct tgtPct maxDays rest
      match processTrade getEntry getDaily slPct tgtPct maxDays s with
      | some o => (o :: r.1, r.2.1 + 1, r.2.2)
      | none => (r.1, r.2.1, r.2.2 + 1)

theorem run_backtest_eq (getEntry : TradeSignal → Except Unit (Option ℚ))
    (getDaily : TradeSignal → Except Unit (Option (List Candle)))
    (slPct tgtPct : ℚ) (maxDays : ℤ) (sigs : List TradeSignal) :
    run_backtest getEntry getDaily slPct tgtPct maxDays sigs =
      (sigs.filterMap (processTrade getEntry getDaily slPct tgtPct maxDays),
       (sigs.filterMap
         (processTrade getEntry getDaily slPct tgtPct maxDays)).length,
       sigs.countP (fun s =>
         (processTrade getEntry getDaily slPct tgtPct maxDays s).isNone)) := by
  induction sigs with
  | nil => rfl
  | cons s rest ih =>
      rw [run_backtest, ih]
      cases hp : processTrade getEntry getDaily slPct tgtPct maxDays s with
      | some o => simp [List.filterMap_cons, List.countP_cons, hp]
      | none => simp [List.filterMap_cons, List.countP_cons, hp]

/-- C5: a signal whose processing fails (exception or unresolvable
entry/exit data) is only counted as one failed trade; the outcomes and
counts of every other signal are exactly those of the run without it —
no per-trade failure aborts the batch. -/
theorem C5_failure_isolation
    (getEntry : TradeSignal → Except Unit (Option ℚ))
    (getDaily : TradeSignal → Except Unit (Option (List Candle)))
    (slPct tgtPct : ℚ) (maxDays : ℤ)
    (pre post : List TradeSignal) (s : TradeSignal)
    (hs : processTrade getEntry getDaily slPct tgtPct maxDays s = none) :
    run_backtest getEntry getDaily slPct tgtPct maxDays (pre ++ s :: post) =
      ((run_backtest getEntry getDaily slPct tgtPct maxDays pre).1 ++
        (run_backtest getEntry getDaily slPct tgtPct maxDays post).1,
       (run_backtest getEntry getDaily slPct tgtPct maxDays pre).2.1 +
        (run_backtest getEntry getDaily slPct tgtPct maxDays post).2.1,
       (run_backtest getEntry getDaily slPct tgtPct maxDays pre).2.2 + 1 +
        (run_backtest getEntry getDaily slPct tgtPct maxDays post).2.2) := by
  rw [run_backtest_eq, run_backtest_eq, run_backtest_eq]
  simp only [Prod.mk.injEq, List.filterMap_append, List.filterMap_cons, hs,
    List.length_append, List.countP_append, List.countP_cons,
    Option.isNone_none]
  refine ⟨trivial, trivial, ?_⟩
  simp
  omega

/-- Environments and signals used to witness C5: the middle signal's
entry lookup raises; the surrounding signals resolve data normally. -/
def c5Entry : TradeSignal → Except Unit (Option ℚ) := fun s =>
  if s.stock_name = "BAD" then .error () else .ok (some 100)

def c5Daily : TradeSignal → Except Unit (Option (List Candle)) := fun _ =>
  .ok (some [⟨0, 100, 120, 90, 100, 0⟩])

/-- Closed witness for C5 with one failing signal between two good
ones. -/
theorem C5_failure_isolation_witness :
    run_backtest c5Entry c5Daily 5 10 3
        [⟨"GOOD1", 0⟩, ⟨"BAD", 0⟩, ⟨"GOOD2", 0⟩] =
      ((run_backtest c5Entry c5Daily 5 10 3 [⟨"GOOD1", 0⟩]).1 ++
        (run_backtest c5Entry c5Daily 5 10 3 [⟨"GOOD2", 0⟩]).1,
       (run_backtest c5Entry c5Daily 5 10 3 [⟨"GOOD1", 0⟩]).2.1 +
        (run_backtest c5Entry c5Daily 5 10 3 [⟨"GOOD2", 0⟩]).2.1,
       (run_backtest c5Entry c5Daily 5 10 3 [⟨"GOOD1", 0⟩]).2.2 + 1 +
        (run_backtest c5Entry c5Daily 5 10 3 [⟨"GOOD2", 0⟩]).2.2) :=
  C5_failure_isolation c5Entry c5Daily 5 10 3
    [⟨"GOOD1", 0⟩] [⟨"GOOD2", 0⟩] ⟨"BAD", 0⟩ rfl

/-- The count and rate fields of `BacktestEngine.calculate_metrics`
(backtest_engine.py lines 178-244): `winning_trades` counts rows with
`is_winner == True`, `losing_trades = total - winning`, `win_rate =
round((winning/total)*100, 2)`.  The purely presentational P&L,
drawdown and histogram fields of the returned dict are not involved in
any claim and are omitted; an empty frame yields `{}`, modelled as
`none`. -/
structure Metrics where
  total_trades : ℕ
  winning_trades : ℕ
  losing_trades : ℕ
  win_rate : ℚ
  deriving DecidableEq, Repr

def calculate_metrics (rs : List Outcome) : Option Metrics :=
  if rs.isEmpty then none
  else
    let total := rs.length
    let winning := rs.countP (·.is_winner)
    let losing := total - winning
    let winRate := if 0 < total then ((winning : ℚ) / total) * 100 else 0
    some ⟨total, winning, losing, round2 winRate⟩

/-- For simulator-produced outcomes with a positive entry price,
`is_winner` agrees with `pnl_pct > 0`. -/
theorem simulate_outcome_winner_iff (symbol : String) (entryPrice : ℚ)
    (entryDay : ℤ) (dailyData : List Candle) (slPct tgtPct : ℚ)
    (maxDays : ℤ) (o : Outcome) (hep : 0 < entryPrice)
    (h : simulate_trade_outcome symbol entryPrice entryDay dailyData
      slPct tgtPct maxDays = some o) :
    o.is_winner = true ↔ 0 < o.pnl_pct := by
  rw [simulate_trade_outcome] at h
  cases hs : simulate_trade entryPrice entryDay dailyData slPct tgtPct
      maxDays with
  | none => rw [hs] at h; exact absurd h (by simp)
  | some v =>
      obtain ⟨xp, reason, days⟩ := v
      rw [hs] at h
      dsimp only at h
      simp only [Option.some.injEq] at h
      subst h
      simp only [decide_eq_true_eq]
      constructor
      · intro hw
        exact mul_pos (div_pos hw hep) (by norm_num)
      · intro hp
        have h100 : (xp - entryPrice) / entryPrice * 100 =
            ((xp - entryPrice) * 100) / entryPrice := by ring
        rw [h100] at hp
        rcases div_pos_iff.mp hp with ⟨h1, _⟩ | ⟨_, h2⟩
        · nlinarith
        · exact absurd h2 (not_lt.mpr hep.le)

/-- A break-even outcome actually produced by the simulator on a flat
series: entry 100, exit 100, `pnl_pct = 0`, `is_winner = False`. -/
def c6FlatOutcome : Outcome :=
  ⟨"FLAT", 100, 100, ExitReason.maxHolding, 0, 0, 0, false, 95, 110⟩

/-- C6 counterexample: on the singleton list containing a break-even
trade, the code reports `losing_trades = 1`, but the number of outcomes
with `pnl_pct < 0` is `0` — the claim's characterisation of
`losing_trades` is false. -/
theorem C6_counterexample :
    simulate_trade_outcome "FLAT" 100 0 [⟨0, 100, 100, 100, 100, 0⟩]
      5 10 0 = some c6FlatOutcome ∧
    (calculate_metrics [c6FlatOutcome]).map Metrics.losing_trades =
      some 1 ∧
    [c6FlatOutcome].countP (fun o => decide (o.pnl_pct < 0)) = 0 := by
  refine ⟨?_, ?_, ?_⟩
  · show simulate_trade_outcome "FLAT" 100 0 [⟨0, 100, 100, 100, 100, 0⟩]
      5 10 0 = some c6FlatOutcome
    rw [simulate_trade_outcome, simulate_trade]
    norm_num [walkExit, exitDecision, c6FlatOutcome]
  · rfl
  · rfl

/-- C6 amended: for a non-empty outcome list on which `is_winner`
coincides with `pnl_pct > 0` (true of all simulator outcomes with
positive entry price), `winning_trades` counts outcomes with
`pnl_pct > 0`, `losing_trades` is `total − winning` (so break-even
outcomes count as losing), and `win_rate` is `winning/total×100`
rounded to two decimals. -/
theorem C6_amended_metrics (rs : List Outcome) (hne : rs ≠ [])
    (hcons : ∀ o ∈ rs, (o.is_winner = true ↔ 0 < o.pnl_pct)) :
    ∃ m, calculate_metrics rs = some m ∧
      m.total_trades = rs.length ∧
      m.winning_trades = rs.countP (fun o => decide (0 < o.pnl_pct)) ∧
      m.losing_trades = m.total_trades - m.winning_trades ∧
      m.win_rate = round2 (((m.winning_trades : ℚ) / rs.length) * 100) := by
  have hempty : rs.isEmpty = false := by
    cases rs with
    | nil => exact absurd rfl hne
    | cons a t => rfl
  have hcount : rs.countP (·.is_winner) =
      rs.countP (fun o => decide (0 < o.pnl_pct)) := by
    clear hne hempty
    induction rs with
    | nil => rfl
    | cons o t ih =>
        rw [List.countP_cons, List.countP_cons,
          ih (fun x hx => hcons x (List.mem_cons_of_mem o hx))]
        congr 1
        have hoiff := hcons o (List.mem_cons_self o t)
        cases hw : o.is_winner with
        | true => simp [hoiff.mp hw]
        | false =>
            have hnp : ¬(0 < o.pnl_pct) := fun hp =>
              by simp [hoiff.mpr hp] at hw
            simp [hnp]
  refine ⟨_, by rw [calculate_metrics, hempty]; rfl, rfl, hcount, rfl, ?_⟩
  have hlen : 0 < rs.length := List.length_pos.mpr hne
  simp only [if_pos hlen, hcount]

/-- Closed witness for the amended C6 on a concrete singleton outcome
list. -/
theorem C6_amended_metrics_witness :
    ∃ m, calculate_metrics [c6FlatOutcome] = some m ∧
      m.total_trades = [c6FlatOutcome].length ∧
      m.winning_trades =
        [c6FlatOutcome].countP (fun o => decide (0 < o.pnl_pct)) ∧
      m.losing_trades = m.total_trades - m.winning_trades ∧
      m.win_rate = round2 (((m.winning_trades : ℚ) /
        [c6FlatOutcome].length) * 100) :=
  C6_amended_metrics [c6FlatOutcome] (by simp)
    (by intro o ho; simp only [List.mem_singleton] at ho; subst ho; decide)

/-! ### Synthetic data: `_create_mock_data` (data_client.py lines
210-262, duplicated in enhanced_data_client.py lines 325-373) -/

/-- `numpy.random`, modelled as an explicit integer state with abstract
distribution samplers: `normal sigma st` draws one `N(0, sigma)` sample
and advances the state, `randint lo hi st` likewise.  `np.random.seed`
is modelled by replacing the state with the seed value. -/
structure RngEnv where
  normal : ℚ → ℕ → ℚ × ℕ
  randint : ℤ → ℤ → ℕ → ℤ × ℕ

/-- The `pd.date_range` grid used by `_create_mock_data`: timestamps in
hours, one candle per day for `"1d"` (and any unknown interval) and one
per hour for `"1h"`, from midnight of `from_date` to midnight of
`to_date` inclusive.  `fromDay`/`toDay` are day numbers. -/
def dateRange (fromDay toDay : ℤ) (interval : String) : List ℤ :=
  if interval = "1h" then
    (List.range (24 * (toDay - fromDay) + 1).toNat).map
      (fun i : ℕ => 24 * fromDay + (i : ℤ))
  else
    (List.range (toDay - fromDay + 1).toNat).map
      (fun i : ℕ => 24 * fromDay + 24 * (i : ℤ))

/-- The generation loop of `_create_mock_data` (lines 235-254): per
date, draw `change ~ N(0, 0.02)`, update the price, then draw the
high/low offsets (`N(0, 0.01)`), the open offset (`N(0, 0.005)`) and
the volume (`randint(1000, 10000)`), rounding prices to two decimals. -/
def genRows (env : RngEnv) : List ℤ → ℚ → ℕ → List Candle × ℕ
  | [], _, st => ([], st)
  | d :: ds, price, st =>
      let c := env.normal (1/50) st
      let currentPrice := price * (1 + c.1)
      let nh := env.normal (1/100) c.2
      let high := currentPrice * (1 + |nh.1|)
      let nl := env.normal (1/100) nh.2
      let low := currentPrice * (1 - |nl.1|)
      let no := env.normal (1/200) nl.2
      let openPrice := currentPrice * (1 + no.1)
      let v := env.randint 1000 10000 no.2
      let rest := genRows env ds currentPrice v.2
      (⟨d, round2 openPrice, round2 high, round2 low,
        round2 currentPrice, v.1⟩ :: rest.1, rest.2)

/-- A pandas frame: its column names and its rows (a frame built from
an empty record list has no columns). -/
structure Frame where
  cols : List String
  rows : List Candle
  deriving Repr

/-- The columns of every record dict appended by `_create_mock_data`. -/
def mockCols : List String :=
  ["datetime", "open", "high", "low", "close", "volume"]

/-- `_create_mock_data`: seed the global RNG with
`hash(symbol) % 2**32` (`pyHash` models Python's per-process string
hash), then generate one candle per grid date starting from base price
100.  Returns the frame and the final RNG state. -/
def create_mock_data (env : RngEnv) (pyHash : String → ℕ) (symbol : String)
    (fromDay toDay : ℤ) (interval : String) (st : ℕ) : Frame × ℕ :=
  let seeded := pyHash symbol % 2 ^ 32
  let r := genRows env (dateRange fromDay toDay interval) 100 seeded
  (⟨if r.1.isEmpty then [] else mockCols, r.1⟩, r.2)

/-- C7: the synthetic generator is deterministic per symbol — the
produced frame is a function of the hash of the symbol and the
date-range arguments only, independent of the ambient RNG state, so two
calls with the same arguments (or with symbols whose hashes agree)
return identical series. -/
theorem C7_mock_deterministic (env : RngEnv) (h₁ h₂ : String → ℕ)
    (sym₁ sym₂ : String) (fromDay toDay : ℤ) (interval : String)
    (s₁ s₂ : ℕ) (hh : h₁ sym₁ % 2 ^ 32 = h₂ sym₂ % 2 ^ 32) :
    (create_mock_data env h₁ sym₁ fromDay toDay interval s₁).1.rows =
      (create_mock_data env h₂ sym₂ fromDay toDay interval s₂).1.rows := by
  rw [create_mock_data, create_mock_data, hh]

/-- Closed witness for C7: same symbol, two different ambient RNG
states, identical series. -/
theorem C7_mock_deterministic_witness :
    (create_mock_data ⟨fun _ st => (0, st + 1), fun _ _ st => (1000, st + 1)⟩
        (fun _ => 7) "ACME" 0 2 "1d" 0).1.rows =
      (create_mock_data ⟨fun _ st => (0, st + 1), fun _ _ st => (1000, st + 1)⟩
        (fun _ => 7) "ACME" 0 2 "1d" 99).1.rows :=
  C7_mock_deterministic ⟨fun _ st => (0, st + 1), fun _ _ st => (1000, st + 1)⟩
    (fun _ => 7) (fun _ => 7) "ACME" "ACME" 0 2 "1d" 0 99 rfl

theorem genRows_map_ts (env : RngEnv) (ds : List ℤ) (price : ℚ) (st : ℕ) :
    (genRows env ds price st).1.map Candle.ts = ds := by
  induction ds generalizing price st with
  | nil => rfl
  | cons d ds ih =>
      rw [genRows]
      dsimp only [List.map_cons]
      rw [ih]

theorem dateRange_ne_nil (fromDay toDay : ℤ) (interval : String)
    (hft : fromDay ≤ toDay) : dateRange fromDay toDay interval ≠ [] := by
  rw [dateRange]
  by_cases hiv : interval = "1h" <;>
    simp only [hiv, if_true, if_false, ne_eq, List.map_eq_nil_iff,
      List.range_eq_nil, reduceIte] <;>
    omega

theorem create_mock_rows_ne_nil (env : RngEnv) (pyHash : String → ℕ)
    (symbol : String) (fromDay toDay : ℤ) (interval : String) (st : ℕ)
    (hft : fromDay ≤ toDay) :
    (create_mock_data env pyHash symbol fromDay toDay interval st).1.rows ≠
      [] := by
  intro hcon
  have := genRows_map_ts env (dateRange fromDay toDay interval) 100
    (pyHash symbol % 2 ^ 32)
  rw [create_mock_data] at hcon
  dsimp only at hcon
  rw [hcon] at this
  exact dateRange_ne_nil fromDay toDay interval hft this.symm

/-- C8 counterexample: a concrete synthetic series has no `synthetic`
column at all — its schema is exactly the vendor schema. -/
theorem C8_counterexample :
    "synthetic" ∉
      (create_mock_data ⟨fun _ st => (0, st + 1), fun _ _ st => (1000, st + 1)⟩
        (fun _ => 3) "ACME" 0 2 "1d" 0).1.cols := by
  decide

/-- C8 amended: the synthetic generator surfaces no `synthetic: true`
flag; every non-degenerate synthetic frame carries exactly the columns
`datetime, open, high, low, close, volume` — the same schema as real
vendor data, so downstream consumers cannot distinguish it. -/
theorem C8_amended_no_flag (env : RngEnv) (pyHash : String → ℕ)
    (symbol : String) (fromDay toDay : ℤ) (interval : String) (st : ℕ)
    (hft : fromDay ≤ toDay) :
    (create_mock_data env pyHash symbol fromDay toDay interval st).1.cols =
      mockCols ∧
    "synthetic" ∉
      (create_mock_data env pyHash symbol fromDay toDay interval st).1.cols := by
  have hrows := create_mock_rows_ne_nil env pyHash symbol fromDay toDay
    interval st hft
  have hcols :
      (create_mock_data env pyHash symbol fromDay toDay interval st).1.cols =
        mockCols := by
    rw [create_mock_data]
    dsimp only
    rw [if_neg (by simpa [List.isEmpty_iff] using hrows)]
  exact ⟨hcols, by rw [hcols]; decide⟩

/-- Closed witness for the amended C8 at a concrete call. -/
theorem C8_amended_no_flag_witness :
    (create_mock_data ⟨fun _ st => (0, st + 1), fun _ _ st => (1000, st + 1)⟩
        (fun _ => 3) "ACME" 0 2 "1h" 0).1.cols = mockCols ∧
    "synthetic" ∉
      (create_mock_data ⟨fun _ st => (0, st + 1), fun _ _ st => (1000, st + 1)⟩
        (fun _ => 3) "ACME" 0 2 "1h" 0).1.cols :=
  C8_amended_no_flag ⟨fun _ st => (0, st + 1), fun _ _ st => (1000, st + 1)⟩
    (fun _ => 3) "ACME" 0 2 "1h" 0 (by norm_num)

/-- A sampler with plausible values refuting the series invariant for
the synthetic generator: the open offset (`sigma = 0.005`) draws `0.01`
while the high/low offsets (`sigma = 0.01`) draw `0.001`, so
`open = 101 > high = 100.1`. -/
def c9Env : RngEnv :=
  ⟨fun sigma st =>
    (if sigma = 1/200 then 1/100 else if sigma = 1/100 then 1/1000 else 0,
     st + 1),
   fun _ _ st => (1000, st + 1)⟩

/-- C9 counterexample: the synthetic generator can emit a candle with
`high < open`, violating `high ≥ max(open, close)`. -/
theorem C9_counterexample :
    ((create_mock_data c9Env (fun _ => 0) "X" 0 1 "1d" 0).1.rows.any
      (fun c => decide (c.high < max c.opn c.close))) = true := by
  decide

/-- One `np.random.normal(0, sigma, n)` array draw: `n` sequential
samples from the stateful RNG. -/
def drawList (env : RngEnv) (sigma : ℚ) : ℕ → ℕ → List ℚ × ℕ
  | 0, st => ([], st)
  | n + 1, st =>
      let v := env.normal sigma st
      let rest := drawList env sigma n v.2
      (v.1 :: rest.1, rest.2)

/-- `EnhancedDataClient._resample_to_hourly` (enhanced_data_client.py
lines 293-323): forward-fill the daily rows onto the hourly grid from
the first to the last timestamp, seed the RNG with 42, perturb each of
open/high/low/close by a column-wise `N(0, 0.001)` array, then enforce
`high = max(open, close, high)` and `low = min(open, close, low)`
row-wise.  An empty input is returned unchanged. -/
def resample_to_hourly (env : RngEnv) (daily : List Candle) : List Candle :=
  match daily.head?, daily.getLast? with
  | some a, some b =>
      let n := (b.ts - a.ts + 1).toNat
      let ov := drawList env (1/1000) n 42
      let hv := drawList env (1/1000) n ov.2
      let lv := drawList env (1/1000) n hv.2
      let cv := drawList env (1/1000) n lv.2
      (List.range n).map (fun i : ℕ =>
        let t := a.ts + (i : ℤ)
        let base := ((daily.filter (fun r => decide (r.ts ≤ t))).getLast?).getD a
        let o := base.opn * (1 + ov.1.getD i 0)
        let hi := base.high * (1 + hv.1.getD i 0)
        let lo := base.low * (1 + lv.1.getD i 0)
        let cl := base.close * (1 + cv.1.getD i 0)
        ⟨t, o, max (max o cl) hi, min (min o cl) lo, cl, base.volume⟩)
  | _, _ => daily

/-- C9 amended: both the synthetic generator and the hourly resampler
emit strictly increasing (hence duplicate-free) timestamps, and the
resampler's output satisfies `high ≥ max(open, close)` and
`low ≤ min(open, close)`; the generator does not guarantee those two
bounds (see the counterexample). -/
theorem C9_amended_series_invariant :
    (∀ (env : RngEnv) (pyHash : String → ℕ) (symbol : String)
      (fromDay toDay : ℤ) (interval : String) (st : ℕ),
        ((create_mock_data env pyHash symbol fromDay toDay interval
          st).1.rows.map Candle.ts).Pairwise (· < ·)) ∧
    (∀ (env : RngEnv) (daily : List Candle),
        ((resample_to_hourly env daily).map Candle.ts).Pairwise (· < ·) ∧
        ∀ c ∈ resample_to_hourly env daily,
          max c.opn c.close ≤ c.high ∧ c.low ≤ min c.opn c.close) := by
  constructor
  · intro env pyHash symbol fromDay toDay interval st
    rw [create_mock_data]
    dsimp only
    rw [genRows_map_ts]
    rw [dateRange]
    by_cases hiv : interval = "1h" <;>
      simp only [hiv, if_true, if_false, reduceIte] <;>
      exact (List.pairwise_lt_range _).map _ (fun a b hab => by
        simp only [add_lt_add_iff_left]
        omega)
  · intro env daily
    cases daily with
    | nil => exact ⟨List.Pairwise.nil, by simp [resample_to_hourly]⟩
    | cons a0 t0 =>
        have hhead : (a0 :: t0).head? = some a0 := rfl
        have hlast : (a0 :: t0).getLast? =
            some ((a0 :: t0).getLast (by simp)) :=
          List.getLast?_eq_getLast_of_ne_nil (by simp)
        constructor
        · rw [resample_to_hourly, hhead, hlast]
          dsimp only
          rw [List.map_map]
          exact (List.pairwise_lt_range _).map _ (fun x y hxy => by
            simp only [Function.comp_apply]
            omega)
        · intro c hc
          rw [resample_to_hourly, hhead, hlast] at hc
          dsimp only at hc
          obtain ⟨i, _, rfl⟩ := List.mem_map.mp hc
          exact ⟨le_max_left _ _, min_le_left _ _⟩

/-- Closed witness for the amended C9 at a concrete generator call and
a concrete one-row resampler input. -/
theorem C9_amended_series_invariant_witness :
    ((create_mock_data c9Env (fun _ => 0) "W" 0 1 "1d" 3).1.rows.map
      Candle.ts).Pairwise (· < ·) ∧
    ((resample_to_hourly c9Env [⟨0, 1, 2, 0, 1, 5⟩]).map
      Candle.ts).Pairwise (· < ·) ∧
    max (⟨0, 1, 2, 0, 1, 5⟩ : Candle).opn (⟨0, 1, 2, 0, 1, 5⟩ : Candle).close ≤
      (⟨0, 1, 2, 0, 1, 5⟩ : Candle).high ∧
    (⟨0, 1, 2, 0, 1, 5⟩ : Candle).low ≤
      min (⟨0, 1, 2, 0, 1, 5⟩ : Candle).opn (⟨0, 1, 2, 0, 1, 5⟩ : Candle).close :=
  ⟨C9_amended_series_invariant.1 c9Env (fun _ => 0) "W" 0 1 "1d" 3,
   (C9_amended_series_invariant.2 c9Env [⟨0, 1, 2, 0, 1, 5⟩]).1,
   (C9_amended_series_invariant.2 c9Env [⟨0, 1, 2, 0, 1, 5⟩]).2
     ⟨0, 1, 2, 0, 1, 5⟩ (by decide)⟩

/-! ### `DataClient.get_historical_data` (data_client.py lines 22-112) -/

/-- The `symbol_formats` list tried in order (data_client.py lines
38-48). -/
def symbol_formats (symbol : String) : List String :=
  [symbol ++ ".NS", symbol ++ ".BO", symbol, symbol ++ "-EQ.NS",
   symbol ++ "-BE.NS", symbol ++ "-NSE.NS", symbol ++ "-BSE.BO",
   symbol ++ ".NSE", symbol ++ ".BSE"]

/-- The vendor retry loop (lines 50-102): return the first format whose
fetch neither raises (`none`) nor comes back empty; otherwise fall
through. -/
def firstNonEmpty (yf : String → Option (List Candle)) :
    List String → Option (List Candle)
  | [] => none
  | f :: rest =>
      match yf f with
      | some d => if d.isEmpty then firstNonEmpty yf rest else some d
      | none => firstNonEmpty yf rest

/-- Insertion step of `df.sort_values('datetime')`. -/
def insertByTs (c : Candle) : List Candle → List Candle
  | [] => [c]
  | x :: xs => if x.ts ≤ c.ts then x :: insertByTs c xs else c :: x :: xs

/-- `df.sort_values('datetime')` (line 95). -/
def sortByTs : List Candle → List Candle
  | [] => []
  | c :: rest => insertByTs c (sortByTs rest)

/-- `DataClient.get_historical_data`: try each vendor symbol format in
order; a non-empty result is normalised (standard columns, sorted by
datetime) and returned; if every attempt fails or is empty, return the
synthetic series from `_create_mock_data` (lines 104-108).  `None` is
produced only by the outer `except` for an unexpected internal
exception, which the pure embedding has no counterpart for. -/
def dataClient_get_historical_data (yf : String → Option (List Candle))
    (env : RngEnv) (pyHash : String → ℕ) (symbol : String)
    (fromDay toDay : ℤ) (interval : String) (st : ℕ) : Option Frame :=
  match firstNonEmpty yf (symbol_formats symbol) with
  | some d => some ⟨mockCols, sortByTs d⟩
  | none => some (create_mock_data env pyHash symbol fromDay toDay
      interval st).1

theorem firstNonEmpty_eq_none (yf : String → Option (List Candle))
    (fmts : List String)
    (hfail : ∀ fmt ∈ fmts, ∀ d, yf fmt = some d → d = []) :
    firstNonEmpty yf fmts = none := by
  induction fmts with
  | nil => rfl
  | cons f rest ih =>
      rw [firstNonEmpty]
      cases hf : yf f with
      | none => exact ih (fun x hx => hfail x (List.mem_cons_of_mem f hx))
      | some d =>
          have hd : d = [] := hfail f (List.mem_cons_self f rest) d hf
          subst hd
          simpa using ih (fun x hx => hfail x (List.mem_cons_of_mem f hx))

/-- C10: when every vendor symbol-format attempt raises or returns an
empty frame, `DataClient.get_historical_data` still returns a frame —
the non-empty synthetic series — rather than failing with
`None`/`DataUnavailable`. -/
theorem C10_mock_fallback (yf : String → Option (List Candle))
    (env : RngEnv) (pyHash : String → ℕ) (symbol : String)
    (fromDay toDay : ℤ) (interval : String) (st : ℕ)
    (hfail : ∀ fmt ∈ symbol_formats symbol, ∀ d, yf fmt = some d → d = [])
    (hft : fromDay ≤ toDay) :
    ∃ fr, dataClient_get_historical_data yf env pyHash symbol fromDay
        toDay interval st = some fr ∧
      fr.rows ≠ [] ∧
      fr = (create_mock_data env pyHash symbol fromDay toDay interval
        st).1 := by
  refine ⟨(create_mock_data env pyHash symbol fromDay toDay interval
    st).1, ?_, ?_, rfl⟩
  · rw [dataClient_get_historical_data,
      firstNonEmpty_eq_none yf (symbol_formats symbol) hfail]
  · exact create_mock_rows_ne_nil env pyHash symbol fromDay toDay
      interval st hft

/-- Closed witness for C10: a vendor that always raises still yields
the non-empty synthetic frame. -/
theorem C10_mock_fallback_witness :
    ∃ fr, dataClient_get_historical_data (fun _ => none)
        ⟨fun _ s => (0, s + 1), fun _ _ s => (1000, s + 1)⟩
        (fun _ => 11) "ACME" 0 1 "1d" 0 = some fr ∧
      fr.rows ≠ [] ∧
      fr = (create_mock_data
        ⟨fun _ s => (0, s + 1), fun _ _ s => (1000, s + 1)⟩
        (fun _ => 11) "ACME" 0 1 "1d" 0).1 :=
  C10_mock_fallback (fun _ => none)
    ⟨fun _ s => (0, s + 1), fun _ _ s => (1000, s + 1)⟩
    (fun _ => 11) "ACME" 0 1 "1d" 0
    (by intro fmt _ d hd; exact absurd hd (by simp))
    (by norm_num)

end Chartink
